import Mathlib

/-!
Shallow embedding of the geo-distance feed filtering engine of the
exxamalte/home-assistant repository.

The embedding covers:

* `GeoRssEvents` — `homeassistant/components/geo_rss_events.py`:
  the `GeoDistanceHelper` distance computations and the
  `GeoRssFeedManager._filter_entries` pipeline (geometry resolution, radius
  check, attribute extraction, filter rules).
* `NswRfsRss` — `.homeassistant/custom_components/sensor/nsw_rural_fire_service_rss.py`:
  `NswRuralFireServiceUpdater.calculate_distance_to_point`,
  `calculate_distance_to_polygon` and `point_in_polygon`.

Modelling choices:

* Python floats are modelled by `ℚ`; a distance value (which can be
  `float("inf")`, the initial value of the accumulating `min` loops) is
  modelled by `WithTop ℚ`.
* The external `haversine` library function (REQUIREMENTS lists
  `haversine==0.4.5`; it is not part of this repository) is an explicit
  parameter `hav : Coord → Coord → ℚ` of every distance computation, so all
  structural theorems hold for every instantiation, in particular for the
  real haversine formula.  Closed counterexamples instantiate it with
  concrete rational-valued functions.
* Python exceptions that can escape a computation (`IndexError` from
  out-of-range list subscripts, `TypeError` from applying a regex to a
  non-string, the `IndexError` of `match.group` for an undefined group) are
  modelled by `Option`/`Except Unit`, with `none`/`.error ()` meaning the
  corresponding Python call raises.
* The user-supplied regular expressions of the `attributes`/`filters`
  configuration are represented by their abstract syntax `Rx`, with an
  executable matcher implementing Python's leftmost/greedy `re.match`
  (anchored at the start, a prefix match suffices) and `re.search` (tries
  successive start positions) semantics for the fragment of regex syntax the
  repository's configurations and tests use.
-/

namespace GeoFeed

/-- Pairs of rational coordinates.  Feed geometries store them in
(longitude, latitude) order. -/
abbrev Coord : Type := ℚ × ℚ

/-- A distance value: a float that can be `float("inf")`. -/
abbrev Dist : Type := WithTop ℚ

/-- The type of the external `haversine` library function: it takes two
(latitude, longitude) pairs and returns the great-circle distance in km.
The development is parametric in it. -/
abbrev Haversine : Type := Coord → Coord → ℚ

/-- Python's `min` on two distance values (`float("inf")` included), written
as an executable match (it equals the lattice `min` of `WithTop ℚ`, see
`distMin_eq_min`). -/
def distMin (a b : Dist) : Dist :=
  match a, b with
  | none, b => b
  | some a, none => some a
  | some a, some b => if a ≤ b then some a else some b

/-- Feed geometries, as dispatched on by `distance_to_geometry` via their
`type` string.  A `Polygon`'s payload in the source is a list of rings of
which only `coordinates[0]` (the outer ring) is ever read; the embedding
carries that outer ring directly. -/
inductive Geometry where
  | point (coordinates : Coord)
  | polygon (ring : List Coord)
  | other (kind : String)
deriving DecidableEq

/-- The `type` field the Python code dispatches on. -/
def Geometry.type : Geometry → String
  | .point _ => "Point"
  | .polygon _ => "Polygon"
  | .other k => k

namespace GeoRssEvents

/-- `GeoDistanceHelper._distance_to_coords`: distance between home and the
provided (lat, lon) coordinates, via the haversine library. -/
def distance_to_coords (hav : Haversine) (home : Coord) (coordinates : Coord) : ℚ :=
  hav coordinates home

/-- `GeoDistanceHelper._distance_to_point`: swap the point's (lon, lat)
coordinates to (lat, lon), then measure to home. -/
def distance_to_point (hav : Haversine) (home : Coord) (point : Coord) : ℚ :=
  distance_to_coords hav home (point.2, point.1)

/-- `GeoDistanceHelper._distance_to_polygon`: starting from `float("inf")`,
take the minimum distance to each vertex of the ring (each swapped to
(lat, lon)); there is no point-in-polygon test in this variant. -/
def distance_to_polygon (hav : Haversine) (home : Coord) (polygon : List Coord) : Dist :=
  polygon.foldl (fun d p => distMin d ((distance_to_coords hav home (p.2, p.1) : ℚ) : Dist)) ⊤

/-- `GeoDistanceHelper.distance_to_geometry`: dispatch on the geometry type;
unrecognized types keep the initial `float("inf")`. -/
def distance_to_geometry (hav : Haversine) (home : Coord) (g : Geometry) : Dist :=
  match g with
  | .point c => ((distance_to_point hav home c : ℚ) : Dist)
  | .polygon ring => distance_to_polygon hav home ring
  | .other _ => ⊤

end GeoRssEvents

namespace NswRfsRss

/-- `NswRuralFireServiceUpdater.__init__` stores
`self._home_coordinates = [home_longitude, home_latitude]` — note the
(lon, lat) order. -/
def home_coordinates (home_latitude home_longitude : ℚ) : Coord :=
  (home_longitude, home_latitude)

/-- `NswRuralFireServiceUpdater.calculate_distance_to_point`: the point's
coordinates are passed to haversine unswapped. -/
def calculate_distance_to_point (hav : Haversine) (home : Coord) (point : Coord) : ℚ :=
  hav point home

/-- The boundary-check loop of `point_in_polygon`
(`for i in range(len(polygon))`), iterating over the given index list.
For `i == 0` it reads `polygon[0]` and `polygon[1]`; for other `i` it reads
`polygon[i-1]` and `polygon[i]`.  `none` models an `IndexError`. -/
def onBoundaryIdx (x y : ℚ) (polygon : List Coord) : List ℕ → Option Bool
  | [] => some false
  | i :: rest =>
    match (if i = 0 then polygon.get? 0 else polygon.get? (i - 1)),
          (if i = 0 then polygon.get? 1 else polygon.get? i) with
    | some p1, some p2 =>
      if p1.2 = p2.2 ∧ p1.2 = y ∧ min p1.1 p2.1 < x ∧ x < max p1.1 p2.1 then some true
      else onBoundaryIdx x y polygon rest
    | _, _ => none

/-- The crossing-number loop of `point_in_polygon`
(`for i in range(n + 1)` with `p2x, p2y = polygon[i % n]`), iterating over
the given index list with the running previous vertex and inside flag.
When the edge is horizontal (`p1y == p2y`) the guards
`y > min(p1y, p2y)` and `y <= max(p1y, p2y)` cannot both hold, so the
branch reading the (then unbound) `xints` is unreachable; the embedding
keeps the same guard structure. -/
def rayCastIdx (x y : ℚ) (polygon : List Coord) (n : ℕ) :
    List ℕ → Coord → Bool → Option Bool
  | [], _, inside => some inside
  | i :: rest, p1, inside =>
    match polygon.get? (i % n) with
    | none => none
    | some p2 =>
      rayCastIdx x y polygon n rest p2
        (if y > min p1.2 p2.2 ∧ y ≤ max p1.2 p2.2 ∧ x ≤ max p1.1 p2.1 then
          if p1.2 ≠ p2.2 then
            if p1.1 = p2.1 ∨ x ≤ (y - p1.2) * (p2.1 - p1.1) / (p2.2 - p1.2) + p1.1 then
              !inside
            else inside
          else if p1.1 = p2.1 then !inside else inside
        else inside)

/-- `NswRuralFireServiceUpdater.point_in_polygon` (ray casting with
vertex and horizontal-boundary special cases); `none` models a raised
`IndexError`. -/
def point_in_polygon (point : Coord) (polygon : List Coord) : Option Bool :=
  if point ∈ polygon then some true
  else
    match onBoundaryIdx point.1 point.2 polygon (List.range polygon.length) with
    | none => none
    | some true => some true
    | some false =>
      match polygon.get? 0 with
      | none => none
      | some p0 =>
        rayCastIdx point.1 point.2 polygon polygon.length
          (List.range (polygon.length + 1)) p0 false

/-- The vertex loop of `calculate_distance_to_polygon`: minimum of
`haversine(polygon[i], home)` over all vertices (unswapped), starting from
`float("inf")`. -/
def vertex_distance (hav : Haversine) (home : Coord) (polygon : List Coord) : Dist :=
  polygon.foldl (fun d p => distMin d ((hav p home : ℚ) : Dist)) ⊤

/-- `NswRuralFireServiceUpdater.calculate_distance_to_polygon`: 0 if home is
inside the ring per `point_in_polygon`, else the minimum vertex distance;
`none` models an exception escaping from `point_in_polygon`. -/
def calculate_distance_to_polygon (hav : Haversine) (home : Coord)
    (polygon : List Coord) : Option Dist :=
  (point_in_polygon home polygon).map fun inside =>
    if inside then (0 : Dist) else vertex_distance hav home polygon

/-- `NswRuralFireServiceUpdater.calculate_distance_to_geometry`. -/
def calculate_distance_to_geometry (hav : Haversine) (home : Coord)
    (g : Geometry) : Option Dist :=
  match g with
  | .point c => some ((calculate_distance_to_point hav home c : ℚ) : Dist)
  | .polygon ring => calculate_distance_to_polygon hav home ring
  | .other _ => some ⊤

end NswRfsRss

/-! ## Regular expressions

Abstract syntax for the fragment of Python regex syntax used by the
repository's configurations and tests (`(?P<custom_attribute>\d+)`,
`Title [3-9]`, `.*`), with an executable leftmost/greedy matcher. -/

/-- Regex abstract syntax.  `group` is the named capture group
`custom_attribute` read by the attribute extractor. -/
inductive Rx where
  | eps
  | ch (c : Char)
  | cls (lo hi : Char)
  | digit
  | dot
  | seq (a b : Rx)
  | plus (a : Rx)
  | star (a : Rx)
  | group (a : Rx)
deriving DecidableEq

/-- Size of a regex, used only to budget the matcher's fuel. -/
def Rx.size : Rx → ℕ
  | .eps => 1
  | .ch _ => 1
  | .cls _ _ => 1
  | .digit => 1
  | .dot => 1
  | .seq a b => a.size + b.size + 1
  | .plus a => a.size + 1
  | .star a => a.size + 1
  | .group a => a.size + 1

/-- Fuelled backtracking matcher.  `rxRun fuel rx s` returns, in
backtracking priority order (greedy first), the list of outcomes
`(rest, captured)`: the unconsumed suffix and the text captured by the
(innermost-last) `group`, if any. -/
def rxRun : ℕ → Rx → List Char → List (List Char × Option (List Char))
  | 0, _, _ => []
  | _ + 1, .eps, s => [(s, none)]
  | _ + 1, .ch c, s =>
    match s with
    | [] => []
    | a :: rest => if a = c then [(rest, none)] else []
  | _ + 1, .cls lo hi, s =>
    match s with
    | [] => []
    | a :: rest => if lo ≤ a ∧ a ≤ hi then [(rest, none)] else []
  | _ + 1, .digit, s =>
    match s with
    | [] => []
    | a :: rest => if a.isDigit then [(rest, none)] else []
  | _ + 1, .dot, s =>
    match s with
    | [] => []
    | a :: rest => if a = '\n' then [] else [(rest, none)]
  | f + 1, .seq p q, s =>
    (rxRun f p s).flatMap fun pr =>
      (rxRun f q pr.1).map fun qr => (qr.1, pr.2 <|> qr.2)
  | f + 1, .plus p, s =>
    (rxRun f p s).flatMap fun pr =>
      ((rxRun f (.plus p) pr.1).map fun qr => (qr.1, qr.2 <|> pr.2)) ++ [pr]
  | f + 1, .star p, s => rxRun f (.plus p) s ++ [(s, none)]
  | f + 1, .group p, s =>
    (rxRun f p s).map fun pr => (pr.1, some (s.take (s.length - pr.1.length)))

/-- Fuel budget: ample for patterns whose repetitions consume input. -/
def rxFuel (rx : Rx) (s : List Char) : ℕ := (s.length + 1) * (rx.size + 1)

/-- Python `re.match(pattern, s)` truthiness: does the pattern match at the
start of the string?  Consuming a proper prefix suffices. -/
def reMatch (rx : Rx) (s : String) : Bool :=
  !(rxRun (rxFuel rx s.data) rx s.data).isEmpty

/-- Python `re.search` on a character list: try each start position from the
left; `some cap` is the first match's `custom_attribute` capture
(`some (some g)` when the group captured `g`, `some none` when the pattern
has no such group — in which case `match.group` would raise), `none` is no
match anywhere. -/
def reSearchList (rx : Rx) : List Char → Option (Option String)
  | [] =>
    match (rxRun (rxFuel rx []) rx []).head? with
    | some pr => some (pr.2.map fun cs => String.mk cs)
    | none => none
  | a :: rest =>
    match (rxRun (rxFuel rx (a :: rest)) rx (a :: rest)).head? with
    | some pr => some (pr.2.map fun cs => String.mk cs)
    | none => reSearchList rx rest

/-- Python `re.search(pattern, s)` together with the
`match.group('custom_attribute')` read. -/
def reSearch (rx : Rx) (s : String) : Option (Option String) :=
  reSearchList rx s.data

/-! ## Entries, rules and the filtering pipeline of `GeoRssFeedManager` -/

/-- An attribute value of a feed entry: feedparser string fields, or the
float `distance` value attached by the pipeline. -/
inductive Val where
  | str (s : String)
  | num (d : Dist)
deriving DecidableEq

/-- Insertion-ordered string-keyed mapping update, as Python dict update:
an existing key keeps its position, a new key is appended. -/
def setAttr : List (String × Val) → String → Val → List (String × Val)
  | [], k, v => [(k, v)]
  | (k', v') :: rest, k, v =>
    if k' = k then (k, v) :: rest else (k', v') :: setAttr rest k v

/-- Lookup in the attribute mapping (Python `hasattr` / `entry[k]`). -/
def getAttr : List (String × Val) → String → Option Val
  | [], _ => none
  | (k', v') :: rest, k => if k' = k then some v' else getAttr rest k

/-- A feed entry, as consumed by `GeoRssFeedManager._filter_entries`: the
optional parsed `where` geometry, the optional `geo_lat`/`geo_long` scalar
pair (already converted by `float(...)`), and the dict-like attributes the
extraction and filter rules read and write. -/
structure Entry where
  whereGeo : Option Geometry := none
  geoLat : Option ℚ := none
  geoLong : Option ℚ := none
  attrs : List (String × Val) := []
deriving DecidableEq

/-- `entry[k]` / `hasattr(entry, k)` on the dict-like attributes. -/
def Entry.get? (e : Entry) (k : String) : Option Val :=
  getAttr e.attrs k

/-- `entry.update({k: v})`. -/
def Entry.set (e : Entry) (k : String) (v : Val) : Entry :=
  { e with attrs := setAttr e.attrs k v }

/-- The string value of an attribute, defaulting to the empty string; used
only to state theorems about entries whose attributes are strings. -/
def Entry.getStr (e : Entry) (k : String) : String :=
  match e.get? k with
  | some (.str s) => s
  | _ => ""

/-- One entry of the `attributes` configuration
(`ATTRIBUTES_SCHEMA`: name, source, regexp). -/
structure AttributeDefinition where
  name : String
  source : String
  regexp : Rx
deriving DecidableEq

/-- One entry of the `filters` configuration (`FILTERS_SCHEMA`: attribute,
regexp).  The field is called `attr` because `attribute` is a Lean
keyword. -/
structure FilterDefinition where
  attr : String
  regexp : Rx
deriving DecidableEq

/-- The per-feed configuration used by `_filter_entries`. -/
structure FeedConfig where
  radius : ℚ
  attributesDefinition : List AttributeDefinition
  filtersDefinition : List FilterDefinition
deriving DecidableEq

/-- One step of the custom-attribute computation in `_filter_entries`:
if the source attribute exists, `re.search` the pattern in it and store the
`custom_attribute` group's text (empty string when there is no match);
otherwise store the empty string.  `.error ()` models the `TypeError` of
searching a non-string value and the `IndexError` of `match.group` when
the pattern defines no `custom_attribute` group. -/
def applyAttributeDefinition (e : Entry) (d : AttributeDefinition) : Except Unit Entry :=
  match e.get? d.source with
  | some (.str s) =>
    match reSearch d.regexp s with
    | none => .ok (e.set d.name (.str ""))
    | some (some g) => .ok (e.set d.name (.str g))
    | some none => .error ()
  | some (.num _) => .error ()
  | none => .ok (e.set d.name (.str ""))

/-- The custom-attribute loop, in configured order. -/
def applyAttributeDefinitions : Entry → List AttributeDefinition → Except Unit Entry
  | e, [] => .ok e
  | e, d :: ds =>
    match applyAttributeDefinition e d with
    | .error u => .error u
    | .ok e' => applyAttributeDefinitions e' ds

/-- The custom-filter loop of `_filter_entries`: for each rule in order, if
the entry has the attribute, `re.match` the pattern against its value and
drop out of the loop with `keep_entry = False` on a non-match; a rule whose
attribute is absent is skipped.  `.ok b` is the resulting `keep_entry`;
`.error ()` models the `TypeError` of matching against a non-string
value. -/
def keepEntry : Entry → List FilterDefinition → Except Unit Bool
  | _, [] => .ok true
  | e, d :: ds =>
    match e.get? d.attr with
    | none => keepEntry e ds
    | some (.str s) => if reMatch d.regexp s then keepEntry e ds else .ok false
    | some (.num _) => .error ()

/-- Geometry resolution at the top of the `_filter_entries` loop: prefer the
parsed `where` field, else synthesize a Point from the `geo_long`/`geo_lat`
pair (stored in (lon, lat) order), else no geometry. -/
def resolveGeometry (e : Entry) : Option Geometry :=
  match e.whereGeo with
  | some g => some g
  | none =>
    match e.geoLat, e.geoLong with
    | some la, some lo => some (.point (lo, la))
    | _, _ => none

/-- The body of the `_filter_entries` loop for one entry: resolve the
geometry (entries without one are skipped), compute the distance, drop the
entry if the distance exceeds the radius, otherwise attach `distance`, run
the attribute extraction and then the filter rules.  `.ok (some e')` means
the annotated entry is appended to `keep_entries`, `.ok none` that it is
dropped, `.error ()` that an exception escapes the update. -/
def processEntry (hav : Haversine) (home : Coord) (cfg : FeedConfig) (e : Entry) :
    Except Unit (Option Entry) :=
  match resolveGeometry e with
  | none => .ok none
  | some g =>
    if GeoRssEvents.distance_to_geometry hav home g ≤ (cfg.radius : Dist) then
      match applyAttributeDefinitions
          (e.set "distance" (.num (GeoRssEvents.distance_to_geometry hav home g)))
          cfg.attributesDefinition with
      | .error u => .error u
      | .ok e2 =>
        match keepEntry e2 cfg.filtersDefinition with
        | .error u => .error u
        | .ok true => .ok (some e2)
        | .ok false => .ok none
    else .ok none

/-- `GeoRssFeedManager._filter_entries` over the available entries, in feed
order. -/
def filterEntries (hav : Haversine) (home : Coord) (cfg : FeedConfig) :
    List Entry → Except Unit (List Entry)
  | [] => .ok []
  | e :: es =>
    match processEntry hav home cfg e with
    | .error u => .error u
    | .ok r =>
      match filterEntries hav home cfg es with
      | .error u => .error u
      | .ok rest =>
        match r with
        | some e' => .ok (e' :: rest)
        | none => .ok rest

/-! ## Concrete instantiations

Closed counterexamples and witnesses instantiate the abstract haversine
parameter with concrete rational-valued functions and use the regex
patterns and inputs of the repository's own tests
(`tests/components/test_geo_rss_events.py`). -/

/-- Constant-one instantiation of the haversine parameter: positive
everywhere, like the real haversine on distinct points. -/
def havOne : Haversine := fun _ _ => 1

/-- First-coordinate projection: a haversine instantiation that separates
argument orders. -/
def havW : Haversine := fun p _ => p.1

/-- Constant-zero instantiation: every geometry is at distance 0. -/
def havZero : Haversine := fun _ _ => 0

/-- Constant-five instantiation, used to exercise the radius boundary. -/
def havFive : Haversine := fun _ _ => 5

/-- A square ring around the origin. -/
def squareRing : List Coord := [(1, 1), (1, -1), (-1, -1), (-1, 1)]

/-- A literal string as a regex (sequence of single characters). -/
def rxString (s : String) : Rx :=
  s.data.foldr (fun c r => Rx.seq (.ch c) r) .eps

/-- The test pattern `(?P<custom_attribute>\d+)`. -/
def rxDigits : Rx := .group (.plus .digit)

/-- The test pattern `Title [3-9]`. -/
def rxTitle39 : Rx := .seq (rxString "Title ") (.cls '3' '9')

/-- The test pattern `.*` of `test_filter_nonexistent_attribute`. -/
def rxDotStar : Rx := .star .dot

/-- An entry with no attributes and no geometry. -/
def emptyEntry : Entry := {}

/-- A feed entry located at (lon 151, lat -33) with the given title, like
the fixture entries of the component tests. -/
def titleEntry (t : String) : Entry :=
  { whereGeo := some (.point (151, -33)), attrs := [("title", .str t)] }

/-- The titles of the titled fixture entries of the component tests
(`geo_rss_events.xml`); `test_filter` retains exactly Title 3, 6 and 9. -/
def scenarioTitles : List String :=
  ["Title 1", "Title 2", "Title 3", "Title 6", "Title 9"]

/-- The configuration of the end-to-end filter scenario: radius 500 km, no
attribute rules, one filter rule on `title` with pattern `Title [3-9]`. -/
def scenarioConfig : FeedConfig :=
  { radius := 500
    attributesDefinition := []
    filtersDefinition := [{ attr := "title", regexp := rxTitle39 }] }

/-- A configuration whose single attribute rule writes the output attribute
`distance`, overwriting the pipeline's distance annotation. -/
def cfg9 : FeedConfig :=
  { radius := 10
    attributesDefinition := [{ name := "distance", source := "title", regexp := rxDigits }]
    filtersDefinition := [] }

/-- A point entry titled "Title 6". -/
def entry9 : Entry :=
  { whereGeo := some (.point (0, 0)), attrs := [("title", .str "Title 6")] }

/-- What the pipeline produces for `entry9` under `cfg9` and `havZero`: the
`distance` attribute has been overwritten with the extracted string "6". -/
def entry9out : Entry :=
  { whereGeo := some (.point (0, 0))
    attrs := [("title", .str "Title 6"), ("distance", .str "6")] }

/-- A rule-free configuration with radius 5 km. -/
def cfg4 : FeedConfig :=
  { radius := 5, attributesDefinition := [], filtersDefinition := [] }

/-- A point entry without further attributes. -/
def entry4 : Entry := { whereGeo := some (.point (151, -33)) }

/-- An entry carrying an unsupported geometry kind. -/
def entry8 : Entry := { whereGeo := some (.other "LineString") }

/-- The pipeline's annotation of `entry4` under `havZero`. -/
def entry4out : Entry := entry4.set "distance" (.num ((0 : ℚ) : Dist))

/-- The filter rule of the `test_filter` scenario. -/
def rule17 : FilterDefinition := { attr := "title", regexp := rxTitle39 }

instance {ε α : Type} [DecidableEq ε] [DecidableEq α] : DecidableEq (Except ε α) :=
  fun a b =>
    match a, b with
    | .error e, .error f =>
      if h : e = f then .isTrue (congrArg _ h)
      else .isFalse fun hh => h (Except.error.inj hh)
    | .error _, .ok _ => .isFalse fun hh => Except.noConfusion hh
    | .ok _, .error _ => .isFalse fun hh => Except.noConfusion hh
    | .ok x, .ok y =>
      if h : x = y then .isTrue (congrArg _ h)
      else .isFalse fun hh => h (Except.ok.inj hh)

/-! ## Helper lemmas -/

/-- The executable `distMin` agrees with the lattice `min` of `WithTop ℚ`. -/
theorem distMin_eq_min (a b : Dist) : distMin a b = min a b := by
  cases a with
  | none =>
    cases b with
    | none => rfl
    | some b =>
      rw [show distMin none (some b) = some b from rfl, WithTop.none_eq_top]
      exact (min_eq_right le_top).symm
  | some a =>
    cases b with
    | none =>
      rw [show distMin (some a) none = some a from rfl, WithTop.none_eq_top]
      exact (min_eq_left le_top).symm
    | some b =>
      rw [show distMin (some a) (some b) =
        (if a ≤ b then some a else some b : Dist) from rfl]
      rw [show (some a : Dist) = (a : Dist) from rfl,
        show (some b : Dist) = (b : Dist) from rfl]
      rcases le_or_lt a b with h | h
      · rw [if_pos h, min_eq_left (WithTop.coe_le_coe.mpr h)]
      · rw [if_neg (not_le.mpr h), min_eq_right (WithTop.coe_le_coe.mpr h.le)]

/-- An accumulating `distMin` fold computes the minimum of the accumulator
and the list's minimum. -/
theorem foldl_distMin_eq {α : Type} (f : α → ℚ) (l : List α) (a : Dist) :
    List.foldl (fun d p => distMin d ((f p : ℚ) : Dist)) a l = min a (l.map f).minimum := by
  induction l generalizing a with
  | nil =>
    simp only [List.foldl_nil, List.map_nil, List.minimum_nil]
    exact (min_eq_left le_top).symm
  | cons x l ih =>
    rw [List.foldl_cons, ih, List.map_cons, List.minimum_cons, distMin_eq_min, min_assoc]

/-- The minimum of a mapped nonempty list is attained and bounds all
images. -/
theorem minimum_map_spec {α : Type} (f : α → ℚ) (l : List α) (hl : l ≠ []) :
    ∃ q : ℚ, (l.map f).minimum = (q : Dist) ∧
      (∀ v ∈ l, q ≤ f v) ∧ ∃ v ∈ l, q = f v := by
  have hml : l.map f ≠ [] := by simpa using hl
  have hne : (l.map f).minimum ≠ ⊤ := List.minimum_ne_top_of_ne_nil hml
  obtain ⟨q, hq⟩ : ∃ q : ℚ, (l.map f).minimum = (q : Dist) := by
    cases hmin : (l.map f).minimum with
    | top => exact absurd hmin hne
    | coe q => exact ⟨q, rfl⟩
  obtain ⟨hmem, hle⟩ := List.minimum_eq_coe_iff.mp hq
  obtain ⟨v, hv, hfv⟩ := List.mem_map.mp hmem
  exact ⟨q, hq, fun w hw => hle (f w) (List.mem_map_of_mem f hw), v, hv, hfv.symm⟩

/-- `GeoRssEvents.distance_to_polygon` is the list minimum of the swapped
vertex distances. -/
theorem distance_to_polygon_eq_minimum (hav : Haversine) (home : Coord) (ring : List Coord) :
    GeoRssEvents.distance_to_polygon hav home ring =
      (ring.map fun p => GeoRssEvents.distance_to_coords hav home (p.2, p.1)).minimum := by
  unfold GeoRssEvents.distance_to_polygon
  rw [foldl_distMin_eq]
  exact min_eq_right le_top

/-- `NswRfsRss.vertex_distance` is the list minimum of the unswapped vertex
distances. -/
theorem vertex_distance_eq_minimum (hav : Haversine) (home : Coord) (ring : List Coord) :
    NswRfsRss.vertex_distance hav home ring = (ring.map fun p => hav p home).minimum := by
  unfold NswRfsRss.vertex_distance
  rw [foldl_distMin_eq]
  exact min_eq_right le_top

/-- Updating a key makes it readable. -/
theorem getAttr_setAttr_self (l : List (String × Val)) (k : String) (v : Val) :
    getAttr (setAttr l k v) k = some v := by
  induction l with
  | nil => simp [setAttr, getAttr]
  | cons p rest ih =>
    obtain ⟨k', v'⟩ := p
    by_cases h : k' = k
    · simp [setAttr, getAttr, h]
    · simp [setAttr, getAttr, h, ih]

/-- Updating one key does not change another. -/
theorem getAttr_setAttr_ne (l : List (String × Val)) (k k' : String) (v : Val)
    (h : k ≠ k') : getAttr (setAttr l k v) k' = getAttr l k' := by
  induction l with
  | nil => simp [setAttr, getAttr, h]
  | cons p rest ih =>
    obtain ⟨k0, v0⟩ := p
    by_cases h0 : k0 = k
    · subst h0
      simp [setAttr, getAttr, h]
    · simp [setAttr, getAttr, h0, ih]

/-- A successful attribute-rule application only updates the rule's output
key. -/
theorem applyAttributeDefinition_ok {e e1 : Entry} {d : AttributeDefinition}
    (h : applyAttributeDefinition e d = .ok e1) : ∃ v, e1 = e.set d.name v := by
  unfold applyAttributeDefinition at h
  split at h
  · split at h
    · exact ⟨.str "", (Except.ok.inj h).symm⟩
    · exact ⟨.str _, (Except.ok.inj h).symm⟩
    · exact Except.noConfusion h
  · exact Except.noConfusion h
  · exact ⟨.str "", (Except.ok.inj h).symm⟩

/-- A successful extraction pass whose rules do not write `distance` leaves
the `distance` attribute unchanged. -/
theorem applyAttributeDefinitions_distance {ds : List AttributeDefinition} {e e' : Entry}
    (hds : ∀ d ∈ ds, d.name ≠ "distance")
    (h : applyAttributeDefinitions e ds = .ok e') :
    e'.get? "distance" = e.get? "distance" := by
  induction ds generalizing e with
  | nil =>
    cases h
    rfl
  | cons d ds ih =>
    unfold applyAttributeDefinitions at h
    split at h
    · exact Except.noConfusion h
    · rename_i e1 happ
      obtain ⟨v, hv⟩ := applyAttributeDefinition_ok happ
      subst hv
      rw [ih (fun d' hd' => hds d' (List.mem_cons_of_mem _ hd')) h]
      exact getAttr_setAttr_ne _ _ _ _ (hds d (List.mem_cons_self d ds))

/-- A kept entry carries the distance annotation, bounded by the radius,
provided no attribute rule overwrites `distance`. -/
theorem processEntry_ok_some {hav : Haversine} {home : Coord} {cfg : FeedConfig}
    {e e0 : Entry} (hcfg : ∀ d ∈ cfg.attributesDefinition, d.name ≠ "distance")
    (h : processEntry hav home cfg e = .ok (some e0)) :
    ∃ dd : Dist, e0.get? "distance" = some (.num dd) ∧ dd ≤ (cfg.radius : Dist) := by
  unfold processEntry at h
  split at h
  · exact Option.noConfusion (Except.ok.inj h)
  · rename_i g hres
    split at h
    · rename_i hle
      split at h
      · exact Except.noConfusion h
      · rename_i e2 happ
        split at h
        · exact Except.noConfusion h
        · have he0 : e2 = e0 := Option.some.inj (Except.ok.inj h)
          subst he0
          refine ⟨GeoRssEvents.distance_to_geometry hav home g, ?_, hle⟩
          rw [applyAttributeDefinitions_distance hcfg happ]
          exact getAttr_setAttr_self _ _ _
        · exact Option.noConfusion (Except.ok.inj h)
    · exact Option.noConfusion (Except.ok.inj h)

/-- Prepending an entry the pipeline drops does not change the output. -/
theorem filterEntries_cons_none (hav : Haversine) (home : Coord) (cfg : FeedConfig)
    (e : Entry) (l : List Entry) (h : processEntry hav home cfg e = .ok none) :
    filterEntries hav home cfg (e :: l) = filterEntries hav home cfg l := by
  simp only [filterEntries, h]
  cases filterEntries hav home cfg l <;> rfl

/-- Removing an entry the pipeline drops, anywhere in the feed, does not
change the output. -/
theorem filterEntries_middle_none (hav : Haversine) (home : Coord) (cfg : FeedConfig)
    (e : Entry) (h : processEntry hav home cfg e = .ok none) (l1 l2 : List Entry) :
    filterEntries hav home cfg (l1 ++ e :: l2) = filterEntries hav home cfg (l1 ++ l2) := by
  induction l1 with
  | nil => simpa using filterEntries_cons_none hav home cfg e l2 h
  | cons a l1 ih =>
    rw [List.cons_append, List.cons_append]
    simp only [filterEntries]
    rw [ih]

/-- The boundary-check loop returns a Boolean whenever the ring has at
least two vertices and every visited index is in range. -/
theorem onBoundaryIdx_total (x y : ℚ) (polygon : List Coord) (hlen : 2 ≤ polygon.length)
    (idx : List ℕ) (hidx : ∀ i ∈ idx, i < polygon.length) :
    ∃ b, NswRfsRss.onBoundaryIdx x y polygon idx = some b := by
  induction idx with
  | nil => exact ⟨false, rfl⟩
  | cons i rest ih =>
    have h0 : 0 < polygon.length := lt_of_lt_of_le (by norm_num) hlen
    have h1 : 1 < polygon.length := lt_of_lt_of_le (by norm_num) hlen
    obtain ⟨p1, hp1⟩ : ∃ p, (if i = 0 then polygon.get? 0 else polygon.get? (i - 1)) = some p := by
      by_cases hi0 : i = 0
      · exact ⟨polygon.get ⟨0, h0⟩, by rw [if_pos hi0]; exact List.get?_eq_get h0⟩
      · have hi1 : i - 1 < polygon.length :=
          lt_of_le_of_lt (Nat.sub_le i 1) (hidx i (List.mem_cons_self i rest))
        exact ⟨polygon.get ⟨i - 1, hi1⟩, by rw [if_neg hi0]; exact List.get?_eq_get hi1⟩
    obtain ⟨p2, hp2⟩ : ∃ p, (if i = 0 then polygon.get? 1 else polygon.get? i) = some p := by
      by_cases hi0 : i = 0
      · exact ⟨polygon.get ⟨1, h1⟩, by rw [if_pos hi0]; exact List.get?_eq_get h1⟩
      · have hii : i < polygon.length := hidx i (List.mem_cons_self i rest)
        exact ⟨polygon.get ⟨i, hii⟩, by rw [if_neg hi0]; exact List.get?_eq_get hii⟩
    rw [NswRfsRss.onBoundaryIdx, hp1, hp2]
    dsimp only
    by_cases hc : p1.2 = p2.2 ∧ p1.2 = y ∧ min p1.1 p2.1 < x ∧ x < max p1.1 p2.1
    · exact ⟨true, by rw [if_pos hc]⟩
    · rw [if_neg hc]
      exact ih fun j hj => hidx j (List.mem_cons_of_mem _ hj)

/-- The crossing-number loop returns a Boolean whenever every visited index
is in range modulo `n`. -/
theorem rayCastIdx_total (x y : ℚ) (polygon : List Coord) (n : ℕ) (idx : List ℕ)
    (hidx : ∀ i ∈ idx, i % n < polygon.length) :
    ∀ (p1 : Coord) (inside : Bool),
      ∃ b, NswRfsRss.rayCastIdx x y polygon n idx p1 inside = some b := by
  induction idx with
  | nil => intro p1 inside; exact ⟨inside, rfl⟩
  | cons i rest ih =>
    intro p1 inside
    have hi : i % n < polygon.length := hidx i (List.mem_cons_self i rest)
    rw [NswRfsRss.rayCastIdx, List.get?_eq_get hi]
    exact ih (fun j hj => hidx j (List.mem_cons_of_mem _ hj)) _ _

/-! ## Claim theorems -/

/-- C1, counterexample: the reference point (0, 0) lies strictly inside the
square ring (the NSW ray-cast test itself says so), yet the
`geo_rss_events` polygon distance computation does not return 0: it has no
point-in-polygon test and returns the minimum vertex distance (here 1 under
the constant-one haversine instantiation; the real haversine is likewise
positive on the distinct vertex/reference pairs). -/
theorem c1_polygon_inside_counterexample :
    NswRfsRss.point_in_polygon (0, 0) squareRing = some true ∧
    GeoRssEvents.distance_to_geometry havOne (0, 0) (.polygon squareRing) = ((1 : ℚ) : Dist) ∧
    GeoRssEvents.distance_to_geometry havOne (0, 0) (.polygon squareRing) ≠ (0 : Dist) :=
  ⟨by decide, by decide, by decide⟩

/-- C1, amended: only the NSW RSS variant tests point-in-polygon and
returns 0 for an inside-or-on reference point; outside, it returns the
minimum over the ring's vertices of haversine applied to the stored
(lon, lat) pairs.  The `geo_rss_events` variant always returns the minimum
over the vertices of haversine applied to the swapped (lat, lon) pairs,
with no inside test.  Neither computes distances to edges. -/
theorem c1_polygon_distance_amended (hav : Haversine) (home : Coord) (ring : List Coord)
    (hne : ring ≠ []) :
    (NswRfsRss.point_in_polygon home ring = some true →
      NswRfsRss.calculate_distance_to_polygon hav home ring = some (0 : Dist)) ∧
    (NswRfsRss.point_in_polygon home ring = some false →
      ∃ q : ℚ, NswRfsRss.calculate_distance_to_polygon hav home ring = some ((q : ℚ) : Dist) ∧
        (∀ v ∈ ring, q ≤ hav v home) ∧ ∃ v ∈ ring, q = hav v home) ∧
    (∃ q : ℚ, GeoRssEvents.distance_to_polygon hav home ring = ((q : ℚ) : Dist) ∧
      (∀ v ∈ ring, q ≤ GeoRssEvents.distance_to_coords hav home (v.2, v.1)) ∧
      ∃ v ∈ ring, q = GeoRssEvents.distance_to_coords hav home (v.2, v.1)) := by
  refine ⟨?_, ?_, ?_⟩
  · intro hin
    unfold NswRfsRss.calculate_distance_to_polygon
    rw [hin]
    rfl
  · intro hout
    unfold NswRfsRss.calculate_distance_to_polygon
    rw [hout]
    obtain ⟨q, hq, hlb, hat⟩ := minimum_map_spec (fun p => hav p home) ring hne
    refine ⟨q, ?_, hlb, hat⟩
    show some (NswRfsRss.vertex_distance hav home ring) = some ((q : ℚ) : Dist)
    rw [vertex_distance_eq_minimum, hq]
  · obtain ⟨q, hq, hlb, hat⟩ :=
      minimum_map_spec (fun p => GeoRssEvents.distance_to_coords hav home (p.2, p.1)) ring hne
    refine ⟨q, ?_, hlb, hat⟩
    rw [distance_to_polygon_eq_minimum, hq]

/-- C1, witness for the amended theorem: the NSW polygon distance is 0 for
the reference point inside the square ring. -/
theorem c1_polygon_distance_amended_witness :
    NswRfsRss.calculate_distance_to_polygon havOne (0, 0) squareRing = some (0 : Dist) :=
  (c1_polygon_distance_amended havOne (0, 0) squareRing (by decide)).1 (by decide)

/-- C2: evaluating the filter loop at the failing input of the repository's
own test `test_filter_nonexistent_attribute` (one rule on the absent
attribute `nonexistent` with pattern `.*`): the code silently skips a rule
whose attribute is absent and KEEPS the entry (the result equals that of
having no rules at all), whereas the claim — and the test, which expects 0
retained entries — say the entry is dropped immediately. -/
theorem c2_missing_filter_attribute_kept :
    keepEntry emptyEntry [{ attr := "nonexistent", regexp := rxDotStar }] = .ok true ∧
    keepEntry emptyEntry [{ attr := "nonexistent", regexp := rxDotStar }] =
      keepEntry emptyEntry [] :=
  ⟨by decide, by decide⟩

/-- C3: `geo_rss_events._distance_to_point` swaps the (lon, lat) input to
(lat, lon) and measures against its home held as (lat, lon); the NSW
variants pass the point unswapped to haversine with home held as
(lon, lat), which diverges from the swapped computation — exhibited at the
spec's own test point (lon 151, lat -33) with home latitude -33.865 and
longitude 151.209444 under the projection instantiation `havW`. -/
theorem c3_point_swap_divergence :
    (∀ (hav : Haversine) (home c : Coord),
      GeoRssEvents.distance_to_point hav home c = hav (c.2, c.1) home) ∧
    (∀ (hav : Haversine) (home c : Coord),
      NswRfsRss.calculate_distance_to_point hav home c = hav c home) ∧
    NswRfsRss.calculate_distance_to_point havW
        (NswRfsRss.home_coordinates (-33865 / 1000) (151209444 / 1000000)) (151, -33) ≠
      havW (-33, 151) (-33865 / 1000, 151209444 / 1000000) :=
  ⟨fun _ _ _ => rfl, fun _ _ _ => rfl, by decide⟩

/-- C4: for an entry with a resolvable geometry, a distance strictly above
the radius drops the entry (under any configuration), and a distance less
than or equal to the radius — equality included — keeps it through the
radius gate: with no extraction or filter rules configured the entry is
retained, annotated with its distance. -/
theorem c4_radius_boundary (hav : Haversine) (home : Coord) (cfg : FeedConfig)
    (e : Entry) (g : Geometry) (hg : resolveGeometry e = some g) :
    (¬ GeoRssEvents.distance_to_geometry hav home g ≤ (cfg.radius : Dist) →
      processEntry hav home cfg e = .ok none) ∧
    (cfg.attributesDefinition = [] → cfg.filtersDefinition = [] →
      GeoRssEvents.distance_to_geometry hav home g ≤ (cfg.radius : Dist) →
      processEntry hav home cfg e =
        .ok (some (e.set "distance"
          (.num (GeoRssEvents.distance_to_geometry hav home g))))) := by
  constructor
  · intro hgt
    unfold processEntry
    rw [hg]
    dsimp only
    rw [if_neg hgt]
  · intro ha hf hle
    unfold processEntry
    rw [hg]
    dsimp only
    rw [if_pos hle, ha, hf]
    rfl

/-- C4, witness: at the exact radius boundary (distance 5 = radius 5 under
`havFive`) the entry is kept and annotated. -/
theorem c4_radius_boundary_witness :
    processEntry havFive (0, 0) cfg4 entry4 =
      .ok (some (entry4.set "distance"
        (.num (GeoRssEvents.distance_to_geometry havFive (0, 0) (.point (151, -33)))))) :=
  (c4_radius_boundary havFive (0, 0) cfg4 entry4 (.point (151, -33)) rfl).2 rfl rfl (by decide)

/-- C5: attribute extraction per rule, in order: with the source attribute
present, the pattern is searched anywhere in the value (`re.search`,
unanchored) and the output attribute is set to the capture group's text or
to the empty string on no match; with the source absent, the output is set
to the empty string and the remaining rules are still processed.  The
concrete conjuncts run `(?P<custom_attribute>\d+)` on "Title 6": search
finds "6" beyond position 0, where an anchored match fails. -/
theorem c5_attribute_extraction :
    (∀ (e : Entry) (d : AttributeDefinition) (s g : String),
      e.get? d.source = some (.str s) → reSearch d.regexp s = some (some g) →
      applyAttributeDefinition e d = .ok (e.set d.name (.str g))) ∧
    (∀ (e : Entry) (d : AttributeDefinition) (s : String),
      e.get? d.source = some (.str s) → reSearch d.regexp s = none →
      applyAttributeDefinition e d = .ok (e.set d.name (.str ""))) ∧
    (∀ (e : Entry) (d : AttributeDefinition),
      e.get? d.source = none →
      applyAttributeDefinition e d = .ok (e.set d.name (.str ""))) ∧
    (∀ (e : Entry) (d : AttributeDefinition) (ds : List AttributeDefinition),
      e.get? d.source = none →
      applyAttributeDefinitions e (d :: ds) =
        applyAttributeDefinitions (e.set d.name (.str "")) ds) ∧
    reSearch rxDigits "Title 6" = some (some "6") ∧
    reMatch rxDigits "Title 6" = false := by
  refine ⟨?_, ?_, ?_, ?_, by decide, by decide⟩
  · intro e d s g h1 h2
    unfold applyAttributeDefinition
    rw [h1]
    dsimp only
    rw [h2]
  · intro e d s h1 h2
    unfold applyAttributeDefinition
    rw [h1]
    dsimp only
    rw [h2]
  · intro e d h1
    unfold applyAttributeDefinition
    rw [h1]
  · intro e d ds h1
    have h2 : applyAttributeDefinition e d = .ok (e.set d.name (.str "")) := by
      unfold applyAttributeDefinition
      rw [h1]
    conv_lhs => rw [applyAttributeDefinitions]
    rw [h2]

/-- C5, witness: the rule of `test_attributes` applied to an entry titled
"Title 6" derives the attribute value "6". -/
theorem c5_attribute_extraction_witness :
    applyAttributeDefinition (titleEntry "Title 6")
        { name := "title_index", source := "title", regexp := rxDigits } =
      .ok ((titleEntry "Title 6").set "title_index" (.str "6")) :=
  c5_attribute_extraction.1 (titleEntry "Title 6")
    { name := "title_index", source := "title", regexp := rxDigits }
    "Title 6" "6" (by decide) (by decide)

/-- C6: with every filter-rule attribute present as a string, the entry is
kept exactly when every rule's pattern `re.match`-es its value; the first
failing rule ends evaluation (whatever rules follow it); an empty rule list
keeps everything.  The closed conjuncts run the `test_filter` scenario —
pattern `Title [3-9]` over the fixture titles retains exactly Title 3, 6
and 9, in feed order, each annotated with its distance — and show that a
proper prefix match suffices ("Title 30" passes). -/
theorem c6_filter_match_semantics :
    (∀ (e : Entry) (rules : List FilterDefinition),
      (∀ d ∈ rules, ∃ s, e.get? d.attr = some (.str s)) →
      keepEntry e rules = .ok (rules.all fun d => reMatch d.regexp (e.getStr d.attr))) ∧
    (∀ (e : Entry) (R1 : List FilterDefinition) (d : FilterDefinition)
        (R2 : List FilterDefinition) (s : String),
      keepEntry e R1 = .ok true → e.get? d.attr = some (.str s) →
      reMatch d.regexp s = false → keepEntry e (R1 ++ d :: R2) = .ok false) ∧
    (∀ e : Entry, keepEntry e [] = .ok true) ∧
    filterEntries havZero (0, 0) scenarioConfig (scenarioTitles.map titleEntry) =
      .ok [(titleEntry "Title 3").set "distance" (.num ((0 : ℚ) : Dist)),
        (titleEntry "Title 6").set "distance" (.num ((0 : ℚ) : Dist)),
        (titleEntry "Title 9").set "distance" (.num ((0 : ℚ) : Dist))] ∧
    reMatch rxTitle39 "Title 30" = true := by
  refine ⟨?_, ?_, fun e => rfl, by decide, by decide⟩
  · intro e rules h
    induction rules with
    | nil => rfl
    | cons d ds ih =>
      obtain ⟨s, hs⟩ := h d (List.mem_cons_self d ds)
      have hgs : e.getStr d.attr = s := by
        unfold Entry.getStr
        rw [hs]
      rw [List.all_cons, hgs]
      unfold keepEntry
      rw [hs]
      dsimp only
      cases hm : reMatch d.regexp s with
      | true =>
        rw [if_pos rfl]
        rw [ih fun d' hd' => h d' (List.mem_cons_of_mem _ hd')]
        rfl
      | false =>
        rw [if_neg (by simp)]
        rfl
  · intro e R1 d R2 s h1 h2 h3
    induction R1 with
    | nil =>
      rw [List.nil_append]
      unfold keepEntry
      rw [h2]
      dsimp only
      rw [h3]
      rw [if_neg (by simp)]
    | cons a R1 ih =>
      rw [List.cons_append]
      unfold keepEntry at h1 ⊢
      cases hga : e.get? a.attr with
      | none =>
        rw [hga] at h1
        dsimp only at h1 ⊢
        exact ih h1
      | some v =>
        cases v with
        | num dd =>
          rw [hga] at h1
          dsimp only at h1
          exact Except.noConfusion h1
        | str s' =>
          rw [hga] at h1
          dsimp only at h1 ⊢
          cases hm : reMatch a.regexp s' with
          | true =>
            rw [hm, if_pos rfl] at h1
            rw [if_pos rfl]
            exact ih h1
          | false =>
            rw [hm, if_neg (by simp)] at h1
            exact absurd (Except.ok.inj h1) (by simp)

/-- C6, witness: the conjunct with hypotheses applied to the fixture entry
"Title 3" and the `test_filter` rule list. -/
theorem c6_filter_match_semantics_witness :
    keepEntry (titleEntry "Title 3") scenarioConfig.filtersDefinition =
      .ok (scenarioConfig.filtersDefinition.all fun d =>
        reMatch d.regexp ((titleEntry "Title 3").getStr d.attr)) :=
  c6_filter_match_semantics.1 (titleEntry "Title 3") scenarioConfig.filtersDefinition
    (fun d hd => ⟨"Title 3", by rw [List.mem_singleton.mp hd]; rfl⟩)

/-- C7: filtering is monotonically narrowing: appending further filter
rules to a rule list under which the entry is already dropped still drops
the entry. -/
theorem c7_filter_monotonic (e : Entry) (R S : List FilterDefinition)
    (h : keepEntry e R = .ok false) : keepEntry e (R ++ S) = .ok false := by
  induction R with
  | nil => exact absurd (Except.ok.inj h) (by simp)
  | cons d R ih =>
    rw [List.cons_append]
    unfold keepEntry at h ⊢
    cases hga : e.get? d.attr with
    | none =>
      rw [hga] at h
      dsimp only at h ⊢
      exact ih h
    | some v =>
      cases v with
      | num dd =>
        rw [hga] at h
        dsimp only at h
        exact Except.noConfusion h
      | str s =>
        rw [hga] at h
        dsimp only at h ⊢
        cases hm : reMatch d.regexp s with
        | true =>
          rw [hm, if_pos rfl] at h
          rw [if_pos rfl]
          exact ih h
        | false =>
          rw [if_neg (by simp)]

/-- C7, witness: the entry titled "Title 1" is dropped by the
`Title [3-9]` rule, and stays dropped when the rule list is extended. -/
theorem c7_filter_monotonic_witness :
    keepEntry (titleEntry "Title 1") ([rule17] ++ [rule17]) = .ok false :=
  c7_filter_monotonic (titleEntry "Title 1") [rule17] [rule17] (by decide)

/-- C8: a geometry whose kind is neither Point nor Polygon keeps the
initial `float("inf")` distance, so an entry carrying it fails the radius
check and is excluded, and the remaining entries of the cycle are processed
exactly as if the entry were not there. -/
theorem c8_unsupported_geometry (hav : Haversine) (home : Coord) (cfg : FeedConfig)
    (kind : String) (hk1 : kind ≠ "Point") (hk2 : kind ≠ "Polygon") (e : Entry)
    (he : resolveGeometry e = some (.other kind)) (l1 l2 : List Entry) :
    GeoRssEvents.distance_to_geometry hav home (.other kind) = ⊤ ∧
    processEntry hav home cfg e = .ok none ∧
    filterEntries hav home cfg (l1 ++ e :: l2) = filterEntries hav home cfg (l1 ++ l2) := by
  have hp : processEntry hav home cfg e = .ok none := by
    unfold processEntry
    rw [he]
    dsimp only [GeoRssEvents.distance_to_geometry]
    rw [if_neg (by simp [top_le_iff])]
  exact ⟨rfl, hp, filterEntries_middle_none hav home cfg e hp l1 l2⟩

/-- C8, witness: a LineString entry in the middle of a feed leaves the
pipeline output unchanged. -/
theorem c8_unsupported_geometry_witness :
    filterEntries havZero (0, 0) cfg4 ([entry4] ++ entry8 :: [entry4]) =
      filterEntries havZero (0, 0) cfg4 ([entry4] ++ [entry4]) :=
  (c8_unsupported_geometry havZero (0, 0) cfg4 "LineString" (by decide) (by decide)
    entry8 rfl [entry4] [entry4]).2.2

/-- C9, counterexample: a configured attribute rule named `distance`
overwrites the pipeline's distance annotation — the kept entry's
`distance` attribute holds the extracted string "6", not a number bounded
by the radius. -/
theorem c9_distance_overwritten_counterexample :
    filterEntries havZero (0, 0) cfg9 [entry9] = .ok [entry9out] ∧
    entry9out.get? "distance" = some (.str "6") :=
  ⟨by decide, by decide⟩

/-- C9, amended: provided no attribute rule's output name is `distance`,
every entry of the filtered output carries a `distance` attribute holding
its computed distance, which is at most the configured radius; the
annotation is attached before extraction and filtering and no later step
changes it. -/
theorem c9_distance_invariant_amended (hav : Haversine) (home : Coord) (cfg : FeedConfig)
    (hcfg : ∀ d ∈ cfg.attributesDefinition, d.name ≠ "distance")
    (l out : List Entry) (h : filterEntries hav home cfg l = .ok out) :
    ∀ e' ∈ out, ∃ dd : Dist, e'.get? "distance" = some (.num dd) ∧
      dd ≤ (cfg.radius : Dist) := by
  induction l generalizing out with
  | nil =>
    cases h
    intro e' he'
    exact absurd he' (List.not_mem_nil e')
  | cons e l ih =>
    unfold filterEntries at h
    split at h
    · exact Except.noConfusion h
    · rename_i r hpe
      split at h
      · exact Except.noConfusion h
      · rename_i rest hfe
        cases r with
        | none =>
          dsimp only at h
          have hre : rest = out := Except.ok.inj h
          subst hre
          exact ih rest hfe
        | some e0 =>
          dsimp only at h
          have hce : e0 :: rest = out := Except.ok.inj h
          subst hce
          intro e' he'
          rcases List.mem_cons.mp he' with he' | he'
          · subst he'
            exact processEntry_ok_some hcfg hpe
          · exact ih rest hfe e' he'

/-- C9, witness for the amended theorem: under a rule-free configuration
the kept entry's distance attribute is the annotated 0, within radius 5. -/
theorem c9_distance_invariant_witness :
    ∃ dd : Dist, entry4out.get? "distance" = some (.num dd) ∧ dd ≤ ((5 : ℚ) : Dist) :=
  c9_distance_invariant_amended havZero (0, 0) cfg4
    (fun d hd => absurd hd (by simp [cfg4])) [entry4] [entry4out] (by decide)
    entry4out (List.mem_singleton.mpr rfl)

/-- C10: the NSW point-in-polygon test returns a Boolean for every ring
with at least two vertices, but on a one-vertex ring with a query point
different from the vertex the boundary-check loop reads `polygon[1]` past
the end and raises (`none`) instead of returning a Boolean. -/
theorem c10_point_in_polygon_partiality :
    (∀ polygon : List Coord, 2 ≤ polygon.length → ∀ p : Coord,
      ∃ b, NswRfsRss.point_in_polygon p polygon = some b) ∧
    (∀ p v : Coord, p ≠ v → NswRfsRss.point_in_polygon p [v] = none) := by
  constructor
  · intro polygon hlen p
    unfold NswRfsRss.point_in_polygon
    by_cases hmem : p ∈ polygon
    · exact ⟨true, by rw [if_pos hmem]⟩
    · rw [if_neg hmem]
      obtain ⟨b, hb⟩ := onBoundaryIdx_total p.1 p.2 polygon hlen (List.range polygon.length)
        fun i hi => List.mem_range.mp hi
      rw [hb]
      cases b with
      | true => exact ⟨true, rfl⟩
      | false =>
        have h0 : 0 < polygon.length := lt_of_lt_of_le (by norm_num) hlen
        rw [List.get?_eq_get h0]
        exact rayCastIdx_total p.1 p.2 polygon polygon.length
          (List.range (polygon.length + 1)) (fun i _ => Nat.mod_lt i h0) _ false
  · intro p v hne
    have hmem : p ∉ [v] := by simp [hne]
    unfold NswRfsRss.point_in_polygon
    rw [if_neg hmem]
    rfl

/-- C10, witness: the query (1, 1) on the one-vertex ring [(0, 0)] makes
the test raise. -/
theorem c10_point_in_polygon_partiality_witness :
    NswRfsRss.point_in_polygon (1, 1) [(0, 0)] = none :=
  c10_point_in_polygon_partiality.2 (1, 1) (0, 0) (by decide)

end GeoFeed
